import Mathlib

/-!
Verification development for `Github-Issue-to-PDF.py`, a batch utility that
fetches a repository's issues and comments from the GitHub REST API, renders
them to HTML and exports each issue to a PDF file.

The Python source is shallowly embedded below.  Network responses, the HTML
parser (BeautifulSoup), the markdown converter (markdown2) and the PDF backend
(pdfkit) are external collaborators of the script; they are modelled as
explicit oracles / data passed into the embedded functions, faithful to how
the script consumes them.  Machine-level details (wall-clock timestamps in log
lines, console progress prints) are noted where they are abstracted.
-/

namespace GhIssuePdf

/-! ## Configuration constants (source lines 23-30) -/

def OWNER : String := "UAX-Technologies"

def REPO : String := "DeckRC"

def STATE : String := "all"

def OUTPUT_DIR : String := "Exported_PDFs/" ++ OWNER ++ "-" ++ REPO

/-! ## Data model

An `Issue` embeds one JSON record of the issue-listing endpoint, restricted to
the fields the script reads.  Optional fields model `dict.get` with a default:
`none` means the key is absent (or `null` where the script treats the two the
same way, e.g. `body`).  `pull_request` records the presence of the
`"pull_request"` key (source line 134 tests key presence only). -/

structure Issue where
  number : Nat
  title : Option String := none
  state : Option String := none
  created_at : Option String := none
  locked : Option Bool := none
  user : Option String := none
  labels : List String := []
  assignees : List String := []
  milestone : Option String := none
  body : Option String := none
  pull_request : Bool := false
deriving DecidableEq, Repr

/-- One comment record, restricted to the fields read at source lines 246-250. -/
structure Comment where
  user : Option String := none
  created_at : Option String := none
  body : Option String := none
deriving DecidableEq, Repr

/-- The JSON payload of one issue-listing response: either an array of records
or something that is not a list (source line 130 checks `isinstance(data, list)`). -/
inductive JsonPayload where
  | arr (records : List Issue)
  | nonList
deriving DecidableEq, Repr

/-- One HTTP response of the issue-listing endpoint. -/
structure Page where
  status : Nat
  payload : JsonPayload
deriving DecidableEq, Repr

/-- The query parameters of one issue-listing request (source lines 117-121). -/
structure ListParams where
  state : String
  page : Nat
  per_page : Nat
deriving DecidableEq, Repr

/-- Result of a run of the `fetch_issues` generator: the records it yielded, the
page requests it made (in order), and whether it hit `sys.exit(1)`
(source line 127). -/
structure FetchOutcome where
  yielded : List Issue
  requested : List ListParams
  fatal : Bool
deriving DecidableEq, Repr

/-! ## `fetch_issues` (source lines 107-139)

The generator requests pages `1, 2, 3, ...` with `per_page = 100`.  We embed
the server as the list `pages` of its responses to those successive requests;
a request past the end of the list returns status 200 with an empty array,
which is GitHub's behaviour past the last page (and is still counted as a
request, as the loop only stops after seeing it).  On a non-200 status the
script prints the error and calls `sys.exit(1)`; records whose JSON object has
a `pull_request` key are skipped; the loop stops on an empty or non-list
payload. -/

def fetch_issues_go (state : String) (page : Nat) : List Page → FetchOutcome
  | [] => ⟨[], [⟨state, page, 100⟩], false⟩
  | p :: rest =>
    if p.status ≠ 200 then
      ⟨[], [⟨state, page, 100⟩], true⟩
    else
      match p.payload with
      | .nonList => ⟨[], [⟨state, page, 100⟩], false⟩
      | .arr recs =>
        if recs.isEmpty then
          ⟨[], [⟨state, page, 100⟩], false⟩
        else
          let r := fetch_issues_go state (page + 1) rest
          ⟨recs.filter (fun i => !i.pull_request) ++ r.yielded,
           ⟨state, page, 100⟩ :: r.requested, r.fatal⟩

def fetch_issues_run (state : String) (pages : List Page) : FetchOutcome :=
  fetch_issues_go state 1 pages

/-! ## `fetch_comments_for_issue` (source lines 141-161)

Same paging scheme against the issue's `comments_url`.  A non-200 status
prints a console message and breaks out of the loop, returning whatever was
accumulated (source lines 152-154); an empty payload breaks without a message.
The embedded function returns the accumulated comments together with a flag
recording whether the console error message was printed. -/

structure CommentPage where
  status : Nat
  payload : List Comment
deriving DecidableEq, Repr

def fetch_comments_go : List CommentPage → List Comment × Bool
  | [] => ([], false)
  | p :: rest =>
    if p.status ≠ 200 then
      ([], true)
    else if p.payload.isEmpty then
      ([], false)
    else
      let r := fetch_comments_go rest
      (p.payload ++ r.1, r.2)

def fetch_comments_for_issue (pages : List CommentPage) : List Comment × Bool :=
  fetch_comments_go pages

/-- The same `while True` comment-paging loop, embedded against an unbounded
response sequence `resps` (page index → response) with explicit fuel, to make
its (non-)termination statable: `fetch_comments_paged resps fuel page` returns
`(comments, printedError, terminated)` where `terminated = true` iff the loop
reached a `break` within `fuel` iterations starting at page index `page`. -/
def fetch_comments_paged (resps : Nat → CommentPage) : Nat → Nat → List Comment × Bool × Bool
  | 0, _ => ([], false, false)
  | fuel + 1, page =>
    let p := resps page
    if p.status ≠ 200 then
      ([], true, true)
    else if p.payload.isEmpty then
      ([], false, true)
    else
      let r := fetch_comments_paged resps fuel (page + 1)
      (p.payload ++ r.1, r.2.1, r.2.2)

/-! ## `markdown_to_html` (source lines 163-165) -/

/-- Helper for the modelled markdown converter: split a character stream at
each occurrence of `**`. -/
def splitOnStars : List Char → List (List Char)
  | [] => [[]]
  | '*' :: '*' :: rest => [] :: splitOnStars rest
  | c :: rest =>
    match splitOnStars rest with
    | s :: ss => (c :: s) :: ss
    | [] => [[c]]

/-- Helper for the modelled markdown converter: the pieces obtained by
splitting on `**` alternate between plain text and strong-emphasis spans. -/
def joinBoldSpans : List String → String
  | [] => ""
  | [x] => x
  | x :: y :: rest => x ++ "<strong>" ++ y ++ "</strong>" ++ joinBoldSpans rest

/-- Modelled from the spec: `markdown2.markdown` is the external
markdown-to-HTML converter (the `markdown2` library is not part of this
repository's source).  Per the spec's Markdown Renderer contract it is a pure
function that renders empty input to an empty HTML fragment and renders
double-asterisk spans to a bold-emphasis (`<strong>`) element inside a
paragraph fragment.  Only this fragment of its behaviour is modelled; the
`extras` argument of the call (fenced code blocks, tables, strikethrough) is
not. -/
def markdown2_markdown (s : String) : String :=
  if s = "" then ""
  else "<p>" ++ joinBoldSpans ((splitOnStars s.data).map String.mk) ++ "</p>\n"

/-- `markdown_to_html` (source line 165): `markdown2.markdown(md_text or "", ...)`.
The argument is `Option String` because the script passes values obtained from
`dict.get` that may be `None`; `md_text or ""` maps both `None` and `""` to `""`. -/
def markdown_to_html (md_text : Option String) : String :=
  markdown2_markdown (md_text.getD "")

/-! ## Base64 (the `base64.b64encode(...).decode("utf-8")` call at line 188)

Standard RFC 4648 base64 with `=` padding, over a byte list. -/

def base64Alphabet : List Char :=
  "ABCDEFGHIJKLMNOPQRSTUVWXYZabcdefghijklmnopqrstuvwxyz0123456789+/".data

def b64char (n : Nat) : Char := base64Alphabet.getD n 'A'

def base64Encode : List Nat → String
  | a :: b :: c :: rest =>
    String.mk [b64char (a / 4), b64char (a % 4 * 16 + b / 16),
               b64char (b % 16 * 4 + c / 64), b64char (c % 64)] ++ base64Encode rest
  | [a, b] =>
    String.mk [b64char (a / 4), b64char (a % 4 * 16 + b / 16), b64char (b % 16 * 4), '=']
  | [a] => String.mk [b64char (a / 4), b64char (a % 4 * 16), '=', '=']
  | [] => ""

/-! ## `inline_images_in_html` (source lines 167-198)

BeautifulSoup is an external collaborator; the spec scopes it out as "the HTML
parser used to locate and rewrite image tags".  Modelled from the spec: a
parsed HTML document is a sequence of nodes, each either text (any markup that
is not an `<img>` tag) or an `<img>` tag with an optional `src` attribute, and
re-serialization (`str(soup)`) reproduces text nodes verbatim.  The network is
the oracle `fetch`: for a given URL, `sess.get` either returns a response
(status, optional `Content-Type` header, body bytes) or raises. -/

inductive HtmlNode where
  | text (s : String)
  | img (src : Option String)
deriving DecidableEq, Repr

inductive ImgFetch where
  | resp (status : Nat) (contentType : Option String) (content : List Nat)
  | exn (msg : String)
deriving DecidableEq, Repr

/-- Python's `str.lower`, faithful on the ASCII range the script compares
against (`"http"`). -/
def pyLower (s : String) : String := String.mk (s.data.map Char.toLower)

/-- Python's `str.upper`, faithful on ASCII (used on the issue state). -/
def pyUpper (s : String) : String := String.mk (s.data.map Char.toUpper)

/-- `str.startswith`, character by character. -/
def startsWithList : List Char → List Char → Bool
  | _, [] => true
  | [], _ :: _ => false
  | c :: cs, p :: ps => c = p && startsWithList cs ps

def pyStartsWith (s pat : String) : Bool := startsWithList s.data pat.data

/-- Serialization of the parsed document back to a string (`str(soup)`,
source line 198). -/
def renderHtml : List HtmlNode → String
  | [] => ""
  | .text s :: rest => s ++ renderHtml rest
  | .img none :: rest => "<img/>" ++ renderHtml rest
  | .img (some src) :: rest => "<img src=\"" ++ src ++ "\"/>" ++ renderHtml rest

/-- The body of the `for img in soup.find_all("img")` loop (source lines
178-196): returns the rewritten node and the number of warning messages
printed for it. -/
def inlineImgStep (fetch : String → ImgFetch) : HtmlNode → HtmlNode × Nat
  | .text s => (.text s, 0)
  | .img srcAttr =>
    let src := srcAttr.getD ""
    if pyStartsWith (pyLower src) "http" then
      match fetch src with
      | .resp status ct content =>
        if status = 200 then
          (.img (some ("data:" ++ ct.getD "image/png" ++ ";base64," ++ base64Encode content)), 0)
        else
          (.img srcAttr, 1)
      | .exn _ => (.img srcAttr, 1)
    else
      (.img srcAttr, 0)

/-- `inline_images_in_html` over the parsed document: rewrites every node with
the loop body and counts the warnings printed to the console. -/
def inline_images_in_html (fetch : String → ImgFetch) : List HtmlNode → List HtmlNode × Nat
  | [] => ([], 0)
  | node :: rest =>
    let n := inlineImgStep fetch node
    let r := inline_images_in_html fetch rest
    (n.1 :: r.1, n.2 + r.2)

/-! ## The HTML template (source lines 33-94)

`HTML_TEMPLATE` is the exact Python string value: the doubled braces of the
CSS block are kept doubled, since `str.format` processes them when the
template is instantiated.  (Braces are written with `\x7b`/`\x7d` escapes.) -/

def HTML_TEMPLATE : String := String.intercalate "\n" [
  "<!DOCTYPE html>",
  "<html lang=\"en\">",
  "<head>",
  "  <meta charset=\"UTF-8\">",
  "  <title>Issue #\x7bissue_number\x7d - \x7bissue_title\x7d</title>",
  "  <style>",
  "    body \x7b\x7b",
  "      font-family: Arial, sans-serif;",
  "      margin: 20px;",
  "      line-height: 1.4;",
  "    \x7d\x7d",
  "    pre, code \x7b\x7b",
  "      background: #f5f5f5;",
  "      padding: 5px;",
  "      font-family: monospace;",
  "      white-space: pre-wrap;",
  "      word-wrap: break-word;",
  "    \x7d\x7d",
  "    h1, h2, h3 \x7b\x7b",
  "      margin-top: 1em;",
  "    \x7d\x7d",
  "    .metadata, .comments \x7b\x7b",
  "      margin: 1em 0;",
  "    \x7d\x7d",
  "    .comment \x7b\x7b",
  "      border-top: 1px solid #ccc;",
  "      padding-top: 1em;",
  "      margin-top: 1em;",
  "    \x7d\x7d",
  "    .comment:first-child \x7b\x7b",
  "      border-top: none;",
  "      margin-top: 0;",
  "      padding-top: 0;",
  "    \x7d\x7d",
  "  </style>",
  "</head>",
  "<body>",
  "  <h1>Issue #\x7bissue_number\x7d: \x7bissue_title\x7d</h1>",
  "  ",
  "  <div class=\"metadata\">",
  "    <p><strong>State:</strong> \x7bissue_state\x7d</p>",
  "    <p><strong>Created at:</strong> \x7bissue_created_at\x7d</p>",
  "    <p><strong>Author:</strong> \x7bissue_author\x7d</p>",
  "    <p><strong>Locked:</strong> \x7blocked\x7d</p>",
  "    \x7bmilestone_html\x7d",
  "    \x7blabels_html\x7d",
  "    \x7bassignees_html\x7d",
  "  </div>",
  "  ",
  "  <hr/>",
  "  <div class=\"issue-body\">",
  "    \x7bissue_body_html\x7d",
  "  </div>",
  "",
  "  <hr/>",
  "  <div class=\"comments\">",
  "    <h2>Comments (\x7bcomments_count\x7d)</h2>",
  "    \x7bcomments_html\x7d",
  "  </div>",
  "</body>",
  "</html>",
  ""]

/-! ## Python `str.format` (the call at source lines 263-276)

`str.format` first parses the template — `\x7b\x7b` and `\x7d\x7d` are literal
braces, `\x7bname\x7d` is a replacement field, a lone brace is a `ValueError` —
and then substitutes each field from the keyword arguments, raising `KeyError`
when a name is missing.  Substituted values are inserted verbatim; they are
never re-parsed for braces.  Only the subset exercised by the script is
modelled: plain keyword field names (the template has no positional fields, no
`!conv`, and no `:spec` suffixes).  `none` models a raised exception. -/

inductive TItem where
  | lit (s : String)
  | field (name : String)
deriving DecidableEq, Repr

/-- Scan a replacement-field name up to the closing brace, returning the name
and the rest of the template; `none` when the field is never closed. -/
def parseFieldName : List Char → Option (String × List Char)
  | [] => none
  | '}' :: rest => some ("", rest)
  | c :: rest =>
    match parseFieldName rest with
    | some nr => some (String.mk (c :: nr.1.data), nr.2)
    | none => none

/-- Template parsing.  The fuel only bounds the recursion (each step consumes
at least one character, so the template's length is always enough). -/
def parseFmtGo : Nat → List Char → Option (List TItem)
  | _, [] => some []
  | 0, _ :: _ => none
  | fuel + 1, '{' :: '{' :: rest =>
    (parseFmtGo fuel rest).map (fun items => .lit "\x7b" :: items)
  | fuel + 1, '}' :: '}' :: rest =>
    (parseFmtGo fuel rest).map (fun items => .lit "\x7d" :: items)
  | fuel + 1, '{' :: rest =>
    match parseFieldName rest with
    | some nr => (parseFmtGo fuel nr.2).map (fun items => .field nr.1 :: items)
    | none => none
  | _ + 1, '}' :: _ => none
  | fuel + 1, c :: rest =>
    (parseFmtGo fuel rest).map (fun items => .lit (String.mk [c]) :: items)

def parseFormat (s : String) : Option (List TItem) :=
  parseFmtGo s.data.length s.data

/-- Substitution phase: literals are copied, fields are looked up among the
keyword arguments (`none` = `KeyError`); values are inserted verbatim. -/
def renderFmt : List TItem → (String → Option String) → Option String
  | [], _ => some ""
  | .lit s :: rest, env => (renderFmt rest env).map (fun t => s ++ t)
  | .field n :: rest, env =>
    match env n with
    | some v => (renderFmt rest env).map (fun t => v ++ t)
    | none => none

def pythonFormat (tmpl : String) (env : String → Option String) : Option String :=
  (parseFormat tmpl).bind (fun items => renderFmt items env)

/-- The replacement-field names of a parsed template, in order. -/
def fmtFieldsOf : List TItem → List String
  | [] => []
  | .lit _ :: rest => fmtFieldsOf rest
  | .field n :: rest => n :: fmtFieldsOf rest

/-! ## `create_issue_pdf` (source lines 200-289) -/

/-- Labels block (source lines 216-222): Python tests the list for truthiness,
so a non-empty list is joined with `", "` and an empty one renders `None`. -/
def labelsHtml (labels : List String) : String :=
  if labels.isEmpty then "<p><strong>Labels:</strong> None</p>"
  else "<p><strong>Labels:</strong> " ++ String.intercalate ", " labels ++ "</p>"

/-- Assignees block (source lines 225-231). -/
def assigneesHtml (assignees : List String) : String :=
  if assignees.isEmpty then "<p><strong>Assignees:</strong> None</p>"
  else "<p><strong>Assignees:</strong> " ++ String.intercalate ", " assignees ++ "</p>"

/-- Milestone block (source lines 234-238). -/
def milestoneHtml : Option String → String
  | some t => "<p><strong>Milestone:</strong> " ++ t ++ "</p>"
  | none => "<p><strong>Milestone:</strong> None</p>"

/-- One comment block (source lines 246-257), the f-string verbatim including
its leading newline and indentation. -/
def commentSnippet (cm : Comment) : String :=
  "\n        <div class=\"comment\">\n          <p><strong>" ++ cm.user.getD "unknown" ++
  "</strong> commented on " ++ cm.created_at.getD "" ++ "</p>\n          <div>" ++
  markdown_to_html cm.body ++ "</div>\n        </div>\n        "

/-- The keyword arguments of the `HTML_TEMPLATE.format(...)` call (source
lines 204-276), as the lookup function `str.format` consults: exactly the
twelve keywords are defined. -/
def issueEnv (i : Issue) (comments : List Comment) : String → Option String := fun name =>
  if name = "issue_number" then some (toString i.number)
  else if name = "issue_title" then some (i.title.getD ("Issue " ++ toString i.number))
  else if name = "issue_state" then some (pyUpper (i.state.getD "unknown"))
  else if name = "issue_created_at" then some (i.created_at.getD "")
  else if name = "issue_author" then some (i.user.getD "unknown")
  else if name = "locked" then some (if i.locked.getD false then "Yes" else "No")
  else if name = "milestone_html" then some (milestoneHtml i.milestone)
  else if name = "labels_html" then some (labelsHtml i.labels)
  else if name = "assignees_html" then some (assigneesHtml i.assignees)
  else if name = "issue_body_html" then some (markdown_to_html i.body)
  else if name = "comments_count" then some (toString comments.length)
  else if name = "comments_html" then some (String.intercalate "\n" (comments.map commentSnippet))
  else none

/-- Destination path of one issue's PDF (source line 283):
`os.path.join(OUTPUT_DIR, f"issue_{issue_number}.pdf")`. -/
def pdf_path (issue_number : Nat) : String :=
  OUTPUT_DIR ++ "/issue_" ++ toString issue_number ++ ".pdf"

/-! ## The orchestrator (`main`, source lines 299-315)

The environment of one run bundles every external collaborator the script
consults: the issue-listing responses, the comment-listing responses per issue
number, the image-fetching network, the HTML parse of the assembled document
(BeautifulSoup, modelled from the spec as an already-parsed node sequence),
and whether/with what message `pdfkit.from_string` raises on a given document
and destination path. -/
structure RunEnv where
  pages : List Page
  commentPages : Nat → List CommentPage
  imgFetch : String → ImgFetch
  parseHtml : String → List HtmlNode
  pdfkit_raises : String → String → Option String

/-- What one `create_issue_pdf` call produced: PDF files written, messages
passed to `log_error` (source line 289; `log_error` itself prefixes each
message with a wall-clock timestamp and appends it as one line to
`error_log.txt`, source lines 291-297 — real time is not modelled, so the log
is embedded as the list of messages), and whether an exception escaped the
call (nothing in `create_issue_pdf` catches a `str.format` failure). -/
structure CreateOutcome where
  pdfs : List String := []
  errors : List String := []
  raised : Bool := false
deriving DecidableEq, Repr

/-- `create_issue_pdf` (source lines 200-289): assemble the document with
`str.format`, inline images, then render with pdfkit; only the pdfkit call is
wrapped in `try/except`, whose handler calls `log_error`. -/
def create_issue_pdf_run (env : RunEnv) (i : Issue) (comments : List Comment) : CreateOutcome :=
  match pythonFormat HTML_TEMPLATE (issueEnv i comments) with
  | none => { raised := true }
  | some full_html =>
    let inlined := renderHtml (inline_images_in_html env.imgFetch (env.parseHtml full_html)).1
    match env.pdfkit_raises inlined (pdf_path i.number) with
    | some ex =>
      { errors := ["Issue #" ++ toString i.number ++ " - PDF generation error: " ++ ex] }
    | none => { pdfs := [pdf_path i.number] }

inductive RunExit where
  | success
  | fatalListing
  | uncaughtExn
deriving DecidableEq, Repr

/-- Observable outcome of one run of `main`: the PDF files written, the lines
appended to the error log, the `total_issues` counter, and how the process
exited (`success` = exit code 0 with the final `Done!` report, `fatalListing`
= `sys.exit(1)` from `fetch_issues`, `uncaughtExn` = an uncaught exception). -/
structure RunResult where
  pdfs : List String
  logLines : List String
  total : Nat
  exit : RunExit
deriving DecidableEq, Repr

/-- The `for issue_data in fetch_issues(...)` body (source lines 304-313),
over the issues the generator yields: fetch the comments, build and export the
PDF, increment `total_issues`; an uncaught exception stops the loop. -/
def processIssues (env : RunEnv) : List Issue → RunResult
  | [] => ⟨[], [], 0, .success⟩
  | i :: rest =>
    let comments := (fetch_comments_for_issue (env.commentPages i.number)).1
    let c := create_issue_pdf_run env i comments
    if c.raised then
      ⟨c.pdfs, c.errors, 0, .uncaughtExn⟩
    else
      let r := processIssues env rest
      ⟨c.pdfs ++ r.pdfs, c.errors ++ r.logLines, r.total + 1, r.exit⟩

/-- `main` (source lines 299-315).  Because `fetch_issues` is a generator, the
records of the pages before a failing page are processed before the
`sys.exit(1)` fires, so the loop body runs exactly over `yielded`; an uncaught
exception in the body pre-empts the listing failure (the generator is only
pulled again after the current issue is processed). -/
def main_run (env : RunEnv) : RunResult :=
  let f := fetch_issues_run STATE env.pages
  let r := processIssues env f.yielded
  if r.exit = .uncaughtExn then r
  else if f.fatal then ⟨r.pdfs, r.logLines, r.total, .fatalListing⟩
  else r

/-! ## Helper lemmas -/

/-- Substitution succeeds whenever every replacement-field name of the parsed
template is among the supplied keyword arguments. -/
theorem renderFmt_isSome (items : List TItem) (env : String → Option String)
    (h : ∀ n, n ∈ fmtFieldsOf items → (env n).isSome = true) :
    (renderFmt items env).isSome = true := by
  induction items with
  | nil => rfl
  | cons it rest ih =>
    cases it with
    | lit s =>
      have hrest := ih (fun n hn => h n (by simpa [fmtFieldsOf] using hn))
      obtain ⟨t, ht⟩ := Option.isSome_iff_exists.mp hrest
      simp [renderFmt, ht]
    | field n =>
      have hn := h n (by simp [fmtFieldsOf])
      obtain ⟨v, hv⟩ := Option.isSome_iff_exists.mp hn
      have hrest := ih (fun m hm => h m (by simp [fmtFieldsOf, hm]))
      obtain ⟨t, ht⟩ := Option.isSome_iff_exists.mp hrest
      simp [renderFmt, hv, ht]

/-- The field names of `HTML_TEMPLATE`, in template order (`issue_number` and
`issue_title` each occur twice: once in `<title>` and once in `<h1>`). -/
def templateFieldNames : List String :=
  ["issue_number", "issue_title", "issue_number", "issue_title", "issue_state",
   "issue_created_at", "issue_author", "locked", "milestone_html", "labels_html",
   "assignees_html", "issue_body_html", "comments_count", "comments_html"]

set_option maxRecDepth 8000 in
theorem parse_template_isSome : (parseFormat HTML_TEMPLATE).isSome = true := by decide

set_option maxRecDepth 8000 in
theorem template_fields :
    fmtFieldsOf ((parseFormat HTML_TEMPLATE).getD []) = templateFieldNames := by decide

/-- The `format` call of `create_issue_pdf` supplies every field name the
template uses. -/
theorem issueEnv_covers (i : Issue) (cs : List Comment) :
    ∀ n ∈ templateFieldNames, (issueEnv i cs n).isSome = true := by
  intro n hn
  fin_cases hn <;> rfl

/-- A name listed among a parsed template's field names is a field of it. -/
theorem field_mem_of_mem_fmtFields (items : List TItem) (n : String)
    (h : n ∈ fmtFieldsOf items) : TItem.field n ∈ items := by
  induction items with
  | nil => simp [fmtFieldsOf] at h
  | cons it rest ih =>
    cases it with
    | lit s =>
      exact List.mem_cons_of_mem _ (ih (by simpa [fmtFieldsOf] using h))
    | field m =>
      have h' : n ∈ m :: fmtFieldsOf rest := by simpa [fmtFieldsOf] using h
      rcases List.mem_cons.mp h' with rfl | hrest
      · exact List.mem_cons_self _ _
      · exact List.mem_cons_of_mem _ (ih hrest)

/-- Substituted values appear verbatim in the output: whenever the template
has a field `n` and the keyword argument `n` is the string `v`, the rendered
result contains `v` as a contiguous segment — `str.format` never re-parses or
alters an inserted value. -/
theorem renderFmt_inserts (items : List TItem) (env : String → Option String)
    (n v : String) (hv : env n = some v) :
    TItem.field n ∈ items → (renderFmt items env).isSome = true →
    ∃ pre post, renderFmt items env = some (pre ++ (v ++ post)) := by
  induction items with
  | nil => intro hmem _; exact absurd hmem (List.not_mem_nil _)
  | cons it rest ih =>
    intro hmem hsome
    cases it with
    | lit s =>
      have hmem' : TItem.field n ∈ rest := by
        rcases List.mem_cons.mp hmem with h | h
        · exact absurd h (by simp)
        · exact h
      cases hr : renderFmt rest env with
      | none => rw [renderFmt, hr] at hsome; simp at hsome
      | some t =>
        obtain ⟨pre, post, heq⟩ := ih hmem' (by rw [hr]; rfl)
        rw [hr] at heq
        have ht : t = pre ++ (v ++ post) := by simpa using heq
        refine ⟨s ++ pre, post, ?_⟩
        rw [renderFmt, hr]
        simp [ht, String.append_assoc]
    | field m =>
      cases hw : env m with
      | none => rw [renderFmt, hw] at hsome; simp at hsome
      | some w =>
        cases hr : renderFmt rest env with
        | none => rw [renderFmt, hw, hr] at hsome; simp at hsome
        | some t =>
          rcases List.mem_cons.mp hmem with h | h
          · have hnm : n = m := by injection h
            subst hnm
            have hwv : w = v := by
              rw [hv] at hw
              injection hw with h'
              exact h'.symm
            subst hwv
            refine ⟨"", t, ?_⟩
            rw [renderFmt, hw, hr]
            rfl
          · obtain ⟨pre, post, heq⟩ := ih h (by rw [hr]; rfl)
            rw [hr] at heq
            have ht : t = pre ++ (v ++ post) := by simpa using heq
            refine ⟨w ++ pre, post, ?_⟩
            rw [renderFmt, hw, hr]
            simp [ht, String.append_assoc]

/-- Assembling the document never raises: the template parses, values are
inserted verbatim (braces in them included), and all twelve keywords are
supplied. -/
theorem assembled_isSome (i : Issue) (cs : List Comment) :
    (pythonFormat HTML_TEMPLATE (issueEnv i cs)).isSome = true := by
  obtain ⟨items, hitems⟩ := Option.isSome_iff_exists.mp parse_template_isSome
  have hf : fmtFieldsOf items = templateFieldNames := by
    have h := template_fields
    simpa [hitems] using h
  unfold pythonFormat
  rw [hitems, Option.some_bind]
  exact renderFmt_isSome items (issueEnv i cs)
    (fun n hn => issueEnv_covers i cs n (hf ▸ hn))

/-- The comments `main` fetches for one issue (source line 309). -/
def comments_of (env : RunEnv) (i : Issue) : List Comment :=
  (fetch_comments_for_issue (env.commentPages i.number)).1

/-- The document `create_issue_pdf` assembles for one issue. -/
def assembled_html (env : RunEnv) (i : Issue) : String :=
  (pythonFormat HTML_TEMPLATE (issueEnv i (comments_of env i))).getD ""

/-- The document after image inlining, as handed to pdfkit. -/
def inlined_html (env : RunEnv) (i : Issue) : String :=
  renderHtml (inline_images_in_html env.imgFetch (env.parseHtml (assembled_html env i))).1

/-- The exception `pdfkit.from_string` raises for one issue, if any. -/
def issue_render_error (env : RunEnv) (i : Issue) : Option String :=
  env.pdfkit_raises (inlined_html env i) (pdf_path i.number)

/-- Whether the PDF rendering step fails for one issue. -/
def issue_render_fails (env : RunEnv) (i : Issue) : Bool :=
  (issue_render_error env i).isSome

/-- The message `create_issue_pdf` logs when rendering an issue fails. -/
def render_error_line (env : RunEnv) (i : Issue) : String :=
  "Issue #" ++ toString i.number ++ " - PDF generation error: " ++
    (issue_render_error env i).getD ""

/-- One `create_issue_pdf` call, resolved: assembly always succeeds, so the
call writes the issue's PDF, or — exactly when pdfkit raises — writes no PDF
and logs one error line; no exception ever escapes the call. -/
theorem create_issue_pdf_run_eq (env : RunEnv) (i : Issue) :
    create_issue_pdf_run env i (comments_of env i) =
      if issue_render_fails env i then ⟨[], [render_error_line env i], false⟩
      else ⟨[pdf_path i.number], [], false⟩ := by
  obtain ⟨html, hh⟩ := Option.isSome_iff_exists.mp (assembled_isSome i (comments_of env i))
  have ha : assembled_html env i = html := by simp [assembled_html, hh]
  unfold create_issue_pdf_run
  rw [hh]
  cases hpk : env.pdfkit_raises
      (renderHtml (inline_images_in_html env.imgFetch (env.parseHtml html)).1)
      (pdf_path i.number) with
  | none =>
    simp [issue_render_fails, issue_render_error, render_error_line, inlined_html, ha, hpk]
  | some ex =>
    simp [issue_render_fails, issue_render_error, render_error_line, inlined_html, ha, hpk]

/-- The per-issue loop of `main`, resolved over any issue list: every issue is
counted, issues whose rendering succeeds contribute their PDF, failing ones
contribute exactly one log line each, and the loop always ends normally. -/
theorem processIssues_eq (env : RunEnv) (issues : List Issue) :
    processIssues env issues =
      ⟨(issues.filter (fun i => !issue_render_fails env i)).map (fun i => pdf_path i.number),
       (issues.filter (fun i => issue_render_fails env i)).map (render_error_line env),
       issues.length, .success⟩ := by
  induction issues with
  | nil => rfl
  | cons i rest ih =>
    have hc : create_issue_pdf_run env i (fetch_comments_for_issue (env.commentPages i.number)).1 =
        if issue_render_fails env i then ⟨[], [render_error_line env i], false⟩
        else ⟨[pdf_path i.number], [], false⟩ := by
      simpa [comments_of] using create_issue_pdf_run_eq env i
    cases hf : issue_render_fails env i with
    | false =>
      rw [hf, if_neg (by simp)] at hc
      simp [processIssues, hc, ih, List.filter_cons, hf]
    | true =>
      rw [hf, if_pos rfl] at hc
      simp [processIssues, hc, ih, List.filter_cons, hf]

/-- The records carried by one listing payload. -/
def pageRecords : JsonPayload → List Issue
  | .arr recs => recs
  | .nonList => []

/-- All records of a paginated listing, in upstream page order. -/
def allRecords : List Page → List Issue
  | [] => []
  | p :: rest => pageRecords p.payload ++ allRecords rest

/-- A well-formed listing: every provided page answers 200 with a non-empty
array (GitHub never returns an empty page in the middle of a listing; the
implicit page after the last provided one answers 200 with `[]`). -/
def goodListing (pages : List Page) : Prop :=
  ∀ p ∈ pages, p.status = 200 ∧ p.payload ≠ .nonList ∧ pageRecords p.payload ≠ []

instance (pages : List Page) : Decidable (goodListing pages) := by
  unfold goodListing; infer_instance

/-- `fetch_issues` over a well-formed listing: it consumes every page plus the
terminating empty one, requesting consecutive page indices with `per_page =
100`, never exits fatally, and yields exactly the non-pull-request records in
upstream order. -/
theorem fetch_issues_go_good (state : String) (page : Nat) (pages : List Page)
    (h : goodListing pages) :
    fetch_issues_go state page pages =
      ⟨(allRecords pages).filter (fun i => !i.pull_request),
       (List.range' page (pages.length + 1)).map (fun k => ⟨state, k, 100⟩),
       false⟩ := by
  induction pages generalizing page with
  | nil => rfl
  | cons p rest ih =>
    obtain ⟨hs, hnl, hne⟩ := h p (List.mem_cons_self p rest)
    have hrest : goodListing rest := fun q hq => h q (List.mem_cons_of_mem p hq)
    cases hp : p.payload with
    | nonList => exact absurd hp hnl
    | arr recs =>
      rw [hp] at hne
      have hemp : recs.isEmpty = false := by
        cases recs with
        | nil => exact absurd rfl hne
        | cons a l => rfl
      simp [fetch_issues_go, hs, hp, hemp, ih (page + 1) hrest, allRecords, pageRecords,
        List.range'_succ, List.filter_append]

/-- Whatever the listing answers, the requests `fetch_issues` makes are for
consecutive page indices starting from the first one, each with
`per_page = 100`. -/
theorem fetch_issues_go_requested (state : String) (page : Nat) (pages : List Page) :
    (fetch_issues_go state page pages).requested =
      (List.range' page (fetch_issues_go state page pages).requested.length).map
        (fun k => ⟨state, k, 100⟩) := by
  induction pages generalizing page with
  | nil => rfl
  | cons p rest ih =>
    obtain ⟨pst, ppl⟩ := p
    by_cases hs : pst = 200
    · subst hs
      cases ppl with
      | nonList => simp [fetch_issues_go]
      | arr recs =>
        cases recs with
        | nil => simp [fetch_issues_go]
        | cons a l =>
          have hrec := ih (page + 1)
          show ((⟨state, page, 100⟩ : ListParams) ::
                  (fetch_issues_go state (page + 1) rest).requested) =
            (List.range' page ((⟨state, page, 100⟩ : ListParams) ::
                (fetch_issues_go state (page + 1) rest).requested).length).map
              (fun k => (⟨state, k, 100⟩ : ListParams))
          rw [List.length_cons, List.range'_succ, List.map_cons]
          exact congrArg _ hrec
    · simp [fetch_issues_go, hs]

/-- All comments of a comment listing, in upstream page order. -/
def allComments : List CommentPage → List Comment
  | [] => []
  | p :: rest => p.payload ++ allComments rest

/-- `fetch_comments_for_issue` when page `good.length + 1` answers with a
non-success status after well-behaved pages `good`: the fetcher prints the
error, stops paging, and returns exactly the comments accumulated from the
earlier pages. -/
theorem fetch_comments_go_partial (good : List CommentPage) (bad : CommentPage)
    (rest : List CommentPage) (hgood : ∀ p ∈ good, p.status = 200 ∧ p.payload ≠ [])
    (hbad : bad.status ≠ 200) :
    fetch_comments_go (good ++ bad :: rest) = (allComments good, true) := by
  induction good with
  | nil => simp [fetch_comments_go, hbad, allComments]
  | cons p tail ih =>
    obtain ⟨hs, hne⟩ := hgood p (List.mem_cons_self p tail)
    have hemp : p.payload.isEmpty = false := by
      cases hq : p.payload with
      | nil => exact absurd hq hne
      | cons a l => rfl
    have := ih (fun q hq => hgood q (List.mem_cons_of_mem p hq))
    simp [fetch_comments_go, hs, hemp, this, allComments]

/-- A comment-page response on which the `while True` loop breaks: a
non-success status (source line 152) or a falsy, i.e. empty, payload
(source line 156). -/
def stopsPaging (p : CommentPage) : Prop := p.status ≠ 200 ∨ p.payload = []

instance (p : CommentPage) : Decidable (stopsPaging p) := by
  unfold stopsPaging; infer_instance

/-- One unfolding step of the comment-paging loop. -/
theorem fetch_comments_paged_succ (resps : Nat → CommentPage) (fuel page : Nat) :
    fetch_comments_paged resps (fuel + 1) page =
      if (resps page).status ≠ 200 then ([], true, true)
      else if (resps page).payload.isEmpty then ([], false, true)
      else
        let r := fetch_comments_paged resps fuel (page + 1)
        ((resps page).payload ++ r.1, r.2.1, r.2.2) := rfl

/-- If the response `k` requests further down the sequence stops the paging,
the loop terminates within `k + 1` iterations. -/
theorem fetch_comments_paged_stops (resps : Nat → CommentPage) (k : Nat) :
    ∀ page, stopsPaging (resps (page + k)) →
      (fetch_comments_paged resps (k + 1) page).2.2 = true := by
  induction k with
  | zero =>
    intro page h
    rw [Nat.add_zero] at h
    rw [fetch_comments_paged_succ]
    cases h with
    | inl h => rw [if_pos h]
    | inr h =>
      by_cases hs : (resps page).status ≠ 200
      · rw [if_pos hs]
      · rw [if_neg hs, if_pos (by rw [h]; rfl)]
  | succ k ih =>
    intro page h
    rw [fetch_comments_paged_succ]
    by_cases hs : (resps page).status ≠ 200
    · rw [if_pos hs]
    · rw [if_neg hs]
      by_cases he : (resps page).payload.isEmpty
      · rw [if_pos he]
      · rw [if_neg he]
        have hsh : page + (k + 1) = page + 1 + k := by omega
        rw [hsh] at h
        exact ih (page + 1) h

/-- If no response from `page` on ever stops the paging, the loop never
reaches a `break`, whatever the iteration bound. -/
theorem fetch_comments_paged_no_stop (resps : Nat → CommentPage) (fuel : Nat) :
    ∀ page, (∀ j, page ≤ j → ¬stopsPaging (resps j)) →
      (fetch_comments_paged resps fuel page).2.2 = false := by
  induction fuel with
  | zero => intro page _; rfl
  | succ fuel ih =>
    intro page h
    have hp := h page (Nat.le_refl page)
    rw [stopsPaging] at hp
    push_neg at hp
    obtain ⟨hs, hne⟩ := hp
    have hemp : ¬(resps page).payload.isEmpty = true := by
      cases hq : (resps page).payload with
      | nil => exact absurd hq hne
      | cons a l => simp [hq]
    rw [fetch_comments_paged_succ, if_neg (not_not_intro hs), if_neg hemp]
    exact ih (page + 1) (fun j hj => h j (Nat.le_of_succ_le hj))

/-- Whether a node is an `<img>` tag. -/
def HtmlNode.isImgTag : HtmlNode → Bool
  | .img _ => true
  | .text _ => false

/-- Spec-side: an image source is treated as a fully-qualified web address
exactly when it begins with `http`, case-insensitively (a missing `src`
attribute reads as the empty string). -/
def isWebAddress (src : Option String) : Bool :=
  pyStartsWith (pyLower (src.getD "")) "http"

/-- Spec-side description of the Image Inliner on one node, written from the
spec's words: an image reference whose source is a fully-qualified web address
and whose fetch succeeds is replaced by a self-contained embedded
representation — base64-encoded bytes tagged with the content type from the
response headers, defaulting to the generic `image/png` when absent; image
references that are not web addresses, and images whose fetch fails, pass
through untouched; non-image nodes are untouched. -/
def specInlineImage (fetch : String → ImgFetch) : HtmlNode → HtmlNode
  | .img src =>
    if isWebAddress src then
      match fetch (src.getD "") with
      | .resp status ct bytes =>
        if status = 200 then
          .img (some ("data:" ++ ct.getD "image/png" ++ ";base64," ++ base64Encode bytes))
        else .img src
      | .exn _ => .img src
    else .img src
  | .text s => .text s

/-- Spec-side: an image counts as unresolvable when its source is a web
address but the fetch fails with a non-success status or a transport
exception; each such image gets exactly one warning. -/
def specImageUnresolved (fetch : String → ImgFetch) : HtmlNode → Bool
  | .img src =>
    if isWebAddress src then
      match fetch (src.getD "") with
      | .resp status _ _ => !(status = 200 : Bool)
      | .exn _ => true
    else false
  | .text _ => false

/-- The loop body agrees with the spec-side description node by node, warning
count included. -/
theorem inlineImgStep_eq_spec (fetch : String → ImgFetch) (n : HtmlNode) :
    inlineImgStep fetch n =
      (specInlineImage fetch n, if specImageUnresolved fetch n then 1 else 0) := by
  cases n with
  | text s => rfl
  | img src =>
    simp only [inlineImgStep, specInlineImage, specImageUnresolved, isWebAddress]
    by_cases hw : pyStartsWith (pyLower (src.getD "")) "http"
    · simp only [hw, if_true]
      cases hf : fetch (src.getD "") with
      | resp status ct content =>
        by_cases h200 : status = 200
        · subst h200; simp
        · simp [h200]
      | exn msg => simp
    · simp [hw]

/-- `inline_images_in_html` maps the spec-side transform over the document and
prints one warning per unresolvable image; it is total (a document is never
rejected). -/
theorem inline_images_eq_spec (fetch : String → ImgFetch) (doc : List HtmlNode) :
    inline_images_in_html fetch doc =
      (doc.map (specInlineImage fetch), doc.countP (specImageUnresolved fetch)) := by
  induction doc with
  | nil => rfl
  | cons n rest ih =>
    simp only [inline_images_in_html, ih, List.map_cons, List.countP_cons,
      inlineImgStep_eq_spec]
    by_cases hu : specImageUnresolved fetch n
    · simp [hu, Nat.add_comm]
    · simp [hu]

/-- Mapping a function that fixes every element of a list is the identity. -/
theorem map_id_of_eq {α : Type} (f : α → α) (l : List α) (h : ∀ a ∈ l, f a = a) :
    l.map f = l := by
  induction l with
  | nil => rfl
  | cons a rest ih =>
    rw [List.map_cons, h a (List.mem_cons_self a rest),
      ih (fun b hb => h b (List.mem_cons_of_mem a hb))]

/-! ## The claims -/

/-- C1: for every run whose issue listing succeeds — whatever subset of the
issues the PDF rendering step (`pdfkit.from_string`) raises on — the run exits
normally, the reported total counts every fetched issue (failing ones
included), every issue whose rendering does not fail gets its PDF file, and
the error log receives exactly one line per failing issue, namely that issue's
`Issue #<n> - PDF generation error: <exn>` record; each failure is contained
and the loop continues with the next issue. -/
theorem c1_render_failure_containment (env : RunEnv)
    (hfatal : (fetch_issues_run STATE env.pages).fatal = false) :
    (main_run env).exit = RunExit.success ∧
    (main_run env).total = (fetch_issues_run STATE env.pages).yielded.length ∧
    (main_run env).pdfs =
      ((fetch_issues_run STATE env.pages).yielded.filter
        (fun i => !issue_render_fails env i)).map (fun i => pdf_path i.number) ∧
    (main_run env).logLines =
      ((fetch_issues_run STATE env.pages).yielded.filter
        (issue_render_fails env)).map (render_error_line env) := by
  simp [main_run, processIssues_eq, hfatal]

def c1Env : RunEnv :=
  { pages := [⟨200, .arr [{ number := 1 }, { number := 2 }, { number := 3 }]⟩],
    commentPages := fun _ => [],
    imgFetch := fun _ => .exn "offline",
    parseHtml := fun s => [.text s],
    pdfkit_raises := fun _ path => if path = pdf_path 2 then some "boom" else none }

set_option maxRecDepth 40000 in
/-- C1 witness: three fetched issues, rendering raising on the second — two
PDF files (issues 1 and 3), one log line referencing issue 2, total 3. -/
theorem c1_witness :
    (fetch_issues_run STATE c1Env.pages).fatal = false ∧
    (main_run c1Env).exit = RunExit.success ∧
    (main_run c1Env).total = 3 ∧
    (main_run c1Env).pdfs = [pdf_path 1, pdf_path 3] ∧
    (main_run c1Env).logLines = ["Issue #2 - PDF generation error: boom"] := by
  have h := c1_render_failure_containment c1Env (by decide)
  exact ⟨by decide, h.1, by decide, by decide, by decide⟩

/-- C4: a non-success status on any issue-listing page makes the process exit
with a non-zero status (`sys.exit(1)`), right after processing the issues the
generator already yielded from earlier pages — so the PDFs and log lines of
the run are exactly those of the prior issues, and no further issue is
processed.  Conversely, when the listing never fails the process exits zero:
the listing failure is the only fatal path (rendering failures are logged,
comment and image failures only warn). -/
theorem c4_fatal_listing_failure (env : RunEnv) :
    ((fetch_issues_run STATE env.pages).fatal = true →
      (main_run env).exit = RunExit.fatalListing ∧
      (main_run env).total = (fetch_issues_run STATE env.pages).yielded.length ∧
      (main_run env).pdfs =
        ((fetch_issues_run STATE env.pages).yielded.filter
          (fun i => !issue_render_fails env i)).map (fun i => pdf_path i.number) ∧
      (main_run env).logLines =
        ((fetch_issues_run STATE env.pages).yielded.filter
          (issue_render_fails env)).map (render_error_line env)) ∧
    ((fetch_issues_run STATE env.pages).fatal = false →
      (main_run env).exit = RunExit.success) := by
  constructor
  · intro h
    simp [main_run, processIssues_eq, h]
  · intro h
    simp [main_run, processIssues_eq, h]

def c4Env : RunEnv :=
  { pages := [⟨200, .arr [{ number := 1 }]⟩, ⟨403, .nonList⟩],
    commentPages := fun _ => [],
    imgFetch := fun _ => .exn "offline",
    parseHtml := fun s => [.text s],
    pdfkit_raises := fun _ _ => none }

set_option maxRecDepth 40000 in
/-- C4 witness: a listing whose second page answers 403 — the run exits
fatally having produced only issue 1's PDF and nothing else; and the all-good
run of `c1Env` exits zero. -/
theorem c4_witness :
    ((main_run c4Env).exit = RunExit.fatalListing ∧
      (main_run c4Env).total = 1 ∧
      (main_run c4Env).pdfs = [pdf_path 1] ∧
      (main_run c4Env).logLines = []) ∧
    (main_run c1Env).exit = RunExit.success := by
  have h1 := (c4_fatal_listing_failure c4Env).1 (by decide)
  have h2 := (c4_fatal_listing_failure c1Env).2 (by decide)
  exact ⟨⟨h1.1, by decide, by decide, by decide⟩, h2⟩

/-- C2: over a well-formed paginated listing (every upstream page answers 200
with a non-empty array), `fetch_issues` never exits fatally and yields exactly
the records that carry no pull-request marker, in upstream page order — so
with N non-pull-request records in the listing it yields exactly N records and
no pull-request record. -/
theorem c2_fetch_yields_non_prs (state : String) (pages : List Page)
    (h : goodListing pages) :
    (fetch_issues_run state pages).fatal = false ∧
    (fetch_issues_run state pages).yielded =
      (allRecords pages).filter (fun i => !i.pull_request) ∧
    (fetch_issues_run state pages).yielded.length =
      ((allRecords pages).filter (fun i => !i.pull_request)).length ∧
    ∀ i ∈ (fetch_issues_run state pages).yielded, i.pull_request = false := by
  have hg := fetch_issues_go_good state 1 pages h
  unfold fetch_issues_run
  rw [hg]
  refine ⟨rfl, rfl, rfl, ?_⟩
  intro i hi
  have hp := (List.mem_filter.mp hi).2
  simpa using hp

def c2Pages : List Page :=
  [⟨200, .arr [{ number := 1 }, { number := 2, pull_request := true }]⟩,
   ⟨200, .arr [{ number := 3 }]⟩]

/-- C2 witness: a two-page listing with one pull request among three records —
the fetcher yields the two plain issues, in order, and no pull request. -/
theorem c2_witness :
    (fetch_issues_run "all" c2Pages).fatal = false ∧
    (fetch_issues_run "all" c2Pages).yielded =
      [{ number := 1 }, { number := 3 }] ∧
    ∀ i ∈ (fetch_issues_run "all" c2Pages).yielded, i.pull_request = false := by
  have h := c2_fetch_yields_non_prs "all" c2Pages (by decide)
  exact ⟨h.1, by decide, h.2.2.2⟩

/-- A page worth of distinct records numbered from `start`. -/
def issuesChunk (n start : Nat) : List Issue :=
  (List.range n).map (fun k => { number := start + k })

/-- A listing whose successive pages carry 100, 100 and 37 records. -/
def pages237 : List Page :=
  [⟨200, .arr (issuesChunk 100 1)⟩, ⟨200, .arr (issuesChunk 100 101)⟩,
   ⟨200, .arr (issuesChunk 37 201)⟩]

set_option maxRecDepth 40000 in
/-- C3 counterexample: given pages of sizes [100, 100, 37] the fetcher does
yield exactly 237 records, but it does not stop without requesting a further
page — the loop only breaks on an empty (or non-list) payload, so after the
37-record third page it issues a fourth request (which returns the empty page)
before stopping: four requests in total. -/
theorem c3_counterexample :
    (fetch_issues_run "all" pages237).yielded.length = 237 ∧
    (fetch_issues_run "all" pages237).requested.length = 4 ∧
    (⟨"all", 4, 100⟩ : ListParams) ∈ (fetch_issues_run "all" pages237).requested := by
  refine ⟨by decide, by decide, by decide⟩

set_option maxRecDepth 40000 in
/-- C3 amended: the fetcher requests fixed-size pages (`per_page = 100`) in
increasing page-index order starting at 1 and terminates when a page returns
zero records or a non-list payload; for a page-size sequence [100, 100, 37] it
yields exactly 237 records and stops only after one further page request that
returns zero records (four requests in total), and for an immediately empty
first page it yields zero records after that single request. -/
theorem c3_amended :
    (∀ (state : String) (pages : List Page),
      (fetch_issues_run state pages).requested =
        (List.range' 1 (fetch_issues_run state pages).requested.length).map
          (fun k => ⟨state, k, 100⟩)) ∧
    (fetch_issues_run "all" pages237).yielded.length = 237 ∧
    (fetch_issues_run "all" pages237).requested =
      [⟨"all", 1, 100⟩, ⟨"all", 2, 100⟩, ⟨"all", 3, 100⟩, ⟨"all", 4, 100⟩] ∧
    (fetch_issues_run "all" [⟨200, .arr []⟩]).yielded = [] ∧
    (fetch_issues_run "all" [⟨200, .arr []⟩]).requested = [⟨"all", 1, 100⟩] := by
  exact ⟨fun state pages => fetch_issues_go_requested state 1 pages,
    by decide, by decide, by decide, by decide⟩

/-- C5: while paging one issue's comments, a non-success status makes the
fetcher print a message (the `true` flag), stop paging, and return exactly the
comments accumulated from the earlier pages — possibly none — instead of
raising; the surrounding run is unaffected (the caller receives the partial
list, cf. the run-level containment of C1). -/
theorem c5_comment_fetch_partial (good : List CommentPage) (bad : CommentPage)
    (rest : List CommentPage)
    (hgood : ∀ p ∈ good, p.status = 200 ∧ p.payload ≠ [])
    (hbad : bad.status ≠ 200) :
    fetch_comments_for_issue (good ++ bad :: rest) = (allComments good, true) :=
  fetch_comments_go_partial good bad rest hgood hbad

def cmtA : Comment := { user := some "alice", body := some "hi" }

/-- C5 witness: one good comment page then a 404 — the fetcher returns the
one accumulated comment and reports the console message. -/
theorem c5_witness :
    fetch_comments_for_issue [⟨200, [cmtA]⟩, ⟨404, []⟩] = ([cmtA], true) := by
  have h := c5_comment_fetch_partial [⟨200, [cmtA]⟩] ⟨404, []⟩ [] (by decide) (by decide)
  simpa [allComments] using h

/-- C6: for every parsed HTML document and network behaviour, the image
inliner rewrites exactly the image references whose source is a
fully-qualified web address and whose fetch succeeds into `data:` URLs whose
payload is the base64 encoding of the fetched bytes and whose content-type tag
comes from the response headers (defaulting to `image/png` when absent); every
image whose fetch fails — non-success status or transport exception — keeps
its original `src` and contributes exactly one warning; the document as a
whole never fails (the transform is total and node-for-node). -/
theorem c6_image_inliner_behaviour (fetch : String → ImgFetch) (doc : List HtmlNode) :
    inline_images_in_html fetch doc =
      (doc.map (specInlineImage fetch), doc.countP (specImageUnresolved fetch)) :=
  inline_images_eq_spec fetch doc

/-- C7: a document containing no `<img>` node is returned unchanged — the
re-serialized string is the same — with zero warnings; and a document whose
image references are all non-web-address sources (already-embedded `data:`
URLs, relative paths, or missing `src`) passes through unchanged. -/
theorem c7_no_images_unchanged (fetch : String → ImgFetch) (doc : List HtmlNode) :
    ((∀ n ∈ doc, n.isImgTag = false) →
      inline_images_in_html fetch doc = (doc, 0) ∧
      renderHtml (inline_images_in_html fetch doc).1 = renderHtml doc) ∧
    ((∀ src, HtmlNode.img src ∈ doc → isWebAddress src = false) →
      (inline_images_in_html fetch doc).1 = doc) := by
  constructor
  · intro h
    have hfix : ∀ n ∈ doc, specInlineImage fetch n = n := by
      intro n hn
      cases n with
      | text s => rfl
      | img src => exact absurd (h _ hn) (by simp [HtmlNode.isImgTag])
    have hwarn : ∀ n ∈ doc, ¬specImageUnresolved fetch n = true := by
      intro n hn
      cases n with
      | text s => simp [specImageUnresolved]
      | img src => exact absurd (h _ hn) (by simp [HtmlNode.isImgTag])
    have hres : inline_images_in_html fetch doc = (doc, 0) := by
      rw [inline_images_eq_spec, map_id_of_eq _ _ hfix, List.countP_eq_zero.mpr hwarn]
    exact ⟨hres, by rw [hres]⟩
  · intro h
    rw [inline_images_eq_spec]
    apply map_id_of_eq
    intro n hn
    cases n with
    | text s => rfl
    | img src => simp [specInlineImage, h src hn]

def docNoImg : List HtmlNode := [.text "<p>hello</p>", .text "<div>world</div>"]

def docLocalImgs : List HtmlNode :=
  [.text "<p>x</p>", .img (some "data:image/png;base64,AAAA"), .img (some "images/a.png"),
   .img none]

/-- C7 witness: a fragment of two text nodes passes through untouched with an
identical serialization and no warning, and a document of already-embedded,
relative and src-less images passes through untouched. -/
theorem c7_witness :
    (inline_images_in_html (fun _ => ImgFetch.exn "offline") docNoImg = (docNoImg, 0) ∧
      renderHtml (inline_images_in_html (fun _ => ImgFetch.exn "offline") docNoImg).1 =
        renderHtml docNoImg) ∧
    (inline_images_in_html (fun _ => ImgFetch.exn "offline") docLocalImgs).1 =
      docLocalImgs := by
  have hsources : ∀ src, HtmlNode.img src ∈ docLocalImgs → isWebAddress src = false := by
    intro src h
    simp only [docLocalImgs, List.mem_cons, List.not_mem_nil, or_false, reduceCtorEq,
      HtmlNode.img.injEq, false_or] at h
    rcases h with rfl | rfl | rfl <;> decide
  have h1 := (c7_no_images_unchanged (fun _ => ImgFetch.exn "offline") docNoImg).1 (by decide)
  have h2 := (c7_no_images_unchanged (fun _ => ImgFetch.exn "offline") docLocalImgs).2 hsources
  exact ⟨h1, h2⟩

/-- C8: the markdown renderer is a pure function of the body text; an absent
(`None`) or empty body renders to the empty HTML fragment, and `**bold**`
renders to a fragment containing a `<strong>` element wrapping `bold`.
(`markdown2` is external to the repository; its renderer is modelled from the
spec's contract, while the `md_text or ""` coercion of an absent body is the
script's own, source line 165.) -/
theorem c8_markdown_renderer :
    markdown_to_html none = "" ∧
    markdown_to_html (some "") = "" ∧
    markdown_to_html (some "**bold**") = "<p>" ++ "<strong>bold</strong>" ++ "</p>\n" := by
  refine ⟨rfl, rfl, by decide⟩

def braceIssue : Issue :=
  { number := 7, title := some "Crash in \x7bhandler\x7d",
    body := some "see \x7b0\x7d below" }

def c9Env : RunEnv :=
  { pages := [⟨200, .arr [braceIssue]⟩],
    commentPages := fun _ => [],
    imgFetch := fun _ => .exn "offline",
    parseHtml := fun s => [.text s],
    pdfkit_raises := fun _ _ => none }

set_option maxRecDepth 40000 in
/-- C9 counterexample: an issue whose title and body contain brace characters
does not make the template substitution raise — `str.format` parses only the
template for delimiters and inserts keyword-argument values verbatim — so the
assembled document carries the braces literally, nothing is logged, the issue
gets its PDF, and the run completes normally instead of aborting. -/
theorem c9_counterexample :
    (pythonFormat HTML_TEMPLATE (issueEnv braceIssue [])).isSome = true ∧
    (∃ pre post, pythonFormat HTML_TEMPLATE (issueEnv braceIssue []) =
      some (pre ++ ("Crash in \x7bhandler\x7d" ++ post))) ∧
    (main_run c9Env).exit = RunExit.success ∧
    (main_run c9Env).total = 1 ∧
    (main_run c9Env).logLines = [] ∧
    (main_run c9Env).pdfs = [pdf_path 7] := by
  refine ⟨by decide, ?_, by decide, by decide, by decide, by decide⟩
  obtain ⟨items, hitems⟩ := Option.isSome_iff_exists.mp parse_template_isSome
  have hfields : fmtFieldsOf items = templateFieldNames := by
    have h := template_fields
    simpa [hitems] using h
  have hmem : TItem.field "issue_title" ∈ items :=
    field_mem_of_mem_fmtFields items "issue_title" (by rw [hfields]; decide)
  have hsome : (renderFmt items (issueEnv braceIssue [])).isSome = true := by
    have h := assembled_isSome braceIssue []
    rw [pythonFormat, hitems, Option.some_bind] at h
    exact h
  have hv : issueEnv braceIssue [] "issue_title" = some "Crash in \x7bhandler\x7d" := rfl
  obtain ⟨pre, post, heq⟩ :=
    renderFmt_inserts items (issueEnv braceIssue []) "issue_title"
      "Crash in \x7bhandler\x7d" hv hmem hsome
  exact ⟨pre, post, by rw [pythonFormat, hitems, Option.some_bind, heq]⟩

/-- C9 amended: brace characters in an issue's title or rendered body never
make the template substitution raise — for every issue and comment list the
`format` call succeeds (values are inserted verbatim), and consequently the
per-issue loop never ends in an uncaught exception. -/
theorem c9_amended :
    (∀ (i : Issue) (comments : List Comment),
      (pythonFormat HTML_TEMPLATE (issueEnv i comments)).isSome = true) ∧
    (∀ (env : RunEnv) (issues : List Issue),
      (processIssues env issues).exit ≠ RunExit.uncaughtExn) := by
  refine ⟨assembled_isSome, fun env issues => ?_⟩
  rw [processIssues_eq]
  simp

/-- C10: the comment-paging loop terminates precisely because some page
request answers with a non-success status or a falsy (empty) payload: if the
response at page index `k ≥ 1` does so, the loop breaks within `k` iterations;
and against a response sequence in which every page from index 1 on answers
200 with a non-empty payload, the loop never reaches a `break`, however many
iterations it is allowed. -/
theorem c10_paging_termination (resps : Nat → CommentPage) (k : Nat) :
    (1 ≤ k → stopsPaging (resps k) →
      (fetch_comments_paged resps k 1).2.2 = true) ∧
    ((∀ j, 1 ≤ j → ¬stopsPaging (resps j)) →
      ∀ fuel, (fetch_comments_paged resps fuel 1).2.2 = false) := by
  constructor
  · intro hk hstop
    have hsplit : k = (k - 1) + 1 := by omega
    rw [hsplit]
    apply fetch_comments_paged_stops
    have harg : 1 + (k - 1) = k := by omega
    rw [harg]
    exact hstop
  · intro h fuel
    exact fetch_comments_paged_no_stop resps fuel 1 (fun j hj => h j hj)

def stopResps : Nat → CommentPage := fun j => if j = 2 then ⟨500, []⟩ else ⟨200, [cmtA]⟩

def busyResps : Nat → CommentPage := fun _ => ⟨200, [cmtA]⟩

/-- C10 witness: with page 2 answering 500 the loop stops within two
iterations; against the all-good constant sequence it has not stopped after
seven iterations. -/
theorem c10_witness :
    (fetch_comments_paged stopResps 2 1).2.2 = true ∧
    (fetch_comments_paged busyResps 7 1).2.2 = false := by
  constructor
  · exact (c10_paging_termination stopResps 2).1 (by omega) (by decide)
  · exact (c10_paging_termination busyResps 2).2
      (fun j hj => by simp [busyResps, stopsPaging]) 7

end GhIssuePdf
